import Mathlib

/-!
Verification of the Iguanas pipeline core: the `LinearPipeline` executor
(`iguanas/pipeline/linear_pipeline.py`) and the `ClassAccessor`
(`iguanas/pipeline/class_accessor.py`), shallowly embedded in Lean 4.

Python values flowing through the pipeline (dataframes, series, dicts,
lists, None) are modelled by the inductive `PyVal`; object identity of
tables (which `pandas.DataFrame.copy` / `dict.copy` refresh) is modelled
by an `ident` field, so that "a copy of X" and "X itself" are distinct
values with equal content.  Pipeline steps are opaque collaborators: a
`StepDef` carries a mutable state together with the capability methods
the executor dispatches to (`fit`, `fit_transform`, `transform`,
`predict`, and a `rules` attribute).  Method invocations performed by the
executor are recorded in a `CallEvent` log so that properties about
"which input was passed to which step method" can be stated directly.
Python exceptions are modelled by `PyErr`; stateful methods return the
updated object alongside the event log and an optional error.
-/

set_option autoImplicit false

namespace Iguanas

/-- Content-carrying dataframe with an object identity. -/
structure Frame where
  ident : Nat
  content : List (List Int)
deriving DecidableEq, Repr

/-- Content-carrying series with an object identity. -/
structure Series where
  ident : Nat
  content : List Int
deriving DecidableEq, Repr

/-- Python values relevant to the pipeline surface: dataframes, series,
tag-keyed dicts of dataframes, lists of strings (for `use_init_data`),
`None`, and a catch-all for other objects. -/
inductive PyVal where
  | frame (f : Frame)
  | series (s : Series)
  | dict (ident : Nat) (entries : List (String × Frame))
  | strlist (l : List String)
  | pynone
  | obj (o : String)
deriving DecidableEq, Repr

/-- Runtime type tags, standing for the `iguanas.utils.types` classes
(`PandasDataFrame`, `PandasSeries`, `Dictionary`, `ClassList`,
`ClassNoneType`). -/
inductive PyKind where
  | kframe | kseries | kdict | klist | knone | kobj
deriving DecidableEq, Repr

def PyVal.kind : PyVal → PyKind
  | .frame _ => .kframe
  | .series _ => .kseries
  | .dict _ _ => .kdict
  | .strlist _ => .klist
  | .pynone => .knone
  | .obj _ => .kobj

/-- Model of `X.copy()`: a new object (fresh identity) with equal content.
For dicts this is the shallow `dict.copy` (same entry objects, new dict). -/
def PyVal.pycopy : PyVal → PyVal
  | .frame f => .frame ⟨f.ident + 1, f.content⟩
  | .series s => .series ⟨s.ident + 1, s.content⟩
  | .dict i e => .dict (i + 1) e
  | v => v

/-- Identity-erasing view of a value: two values are "equal in content"
when their `stripIdent`s agree. -/
def PyVal.stripIdent : PyVal → PyVal
  | .frame f => .frame ⟨0, f.content⟩
  | .series s => .series ⟨0, s.content⟩
  | .dict _ e => .dict 0 (e.map (fun p => (p.1, ⟨0, p.2.content⟩)))
  | v => v

/-- Python exceptions raised by the pipeline core. -/
inductive PyErr where
  | typeError (argName : String)
  | attributeError (attrName : String)
  | indexError
  | keyError (key : String)
  | valueError (msg : String)
  | notFittedError (msg : String)
deriving DecidableEq, Repr

/-- Modelled from the spec: `iguanas.utils.utils.check_allowed_types` is not
under the source tree; per the spec, an argument whose container kind is not
among the allowed ones is "rejected with a type error" identifying the
argument, detected before any step executes. -/
def checkAllowedTypes (v : PyVal) (argName : String) (allowed : List PyKind) :
    Option PyErr :=
  if v.kind ∈ allowed then none else some (.typeError argName)

/-! ## ClassAccessor (`class_accessor.py`) -/

/-- Embedding of `ClassAccessor.__init__`: an immutable
`(class_tag, class_attribute)` pair. -/
structure ClassAccessor where
  class_tag : String
  class_attribute : String
deriving DecidableEq, Repr

/-- Python-dict lookup on an association list (Python dicts have unique
keys; the first match is the binding). -/
def dictLookup {α : Type} (m : List (String × α)) (k : String) : Option α :=
  match m with
  | [] => none
  | (k0, v) :: rest => if k0 = k then some v else dictLookup rest k

/-- Embedding of `ClassAccessor.get`: if `class_tag` is a key of
`pipeline_params`, return `pipeline_params[class_tag][class_attribute]`
(a missing attribute key raises the dict `KeyError`); otherwise raise
`ValueError` naming the tag. -/
def ClassAccessor.get (c : ClassAccessor)
    (pipeline_params : List (String × List (String × PyVal))) :
    Except PyErr PyVal :=
  match dictLookup pipeline_params c.class_tag with
  | some ns =>
    match dictLookup ns c.class_attribute with
    | some v => .ok v
    | none => .error (.keyError c.class_attribute)
  | none =>
    .error (.valueError
      ("There are no steps in pipeline corresponding to class_tag=" ++
        c.class_tag))

/-! ## LinearPipeline (`linear_pipeline.py`) -/

/-- Opaque pipeline step: internal state plus the capability methods the
executor dispatches to.  `fitF` / `fitTransformF` take the current state and
`(X, y, sample_weight)` and return the mutated state (and, for
`fit_transform`, the transformed output); `transformF` / `predictF` are the
post-fit, non-mutating capabilities; `rulesF` reads the step's `rules`
attribute off its state. -/
structure StepDef where
  st : PyVal
  fitF : PyVal → PyVal → PyVal → PyVal → PyVal
  fitTransformF : PyVal → PyVal → PyVal → PyVal → PyVal × PyVal
  transformF : PyVal → PyVal → PyVal
  predictF : PyVal → PyVal → PyVal
  rulesF : PyVal → PyVal

/-- Log entry for one step-method invocation performed by the executor,
recording the effective input (and, where the method returns a table or
series, its output). -/
inductive CallEvent where
  | fitTransformCall (tag : String) (X y sw out : PyVal)
  | fitCall (tag : String) (X y sw : PyVal)
  | transformCall (tag : String) (X out : PyVal)
  | predictCall (tag : String) (X out : PyVal)

/-- Effective input `X` recorded by an event. -/
def CallEvent.inp : CallEvent → PyVal
  | .fitTransformCall _ X _ _ _ => X
  | .fitCall _ X _ _ => X
  | .transformCall _ X _ => X
  | .predictCall _ X _ => X

/-- Output recorded by an event (`pynone` for `fit`, which returns `None`). -/
def CallEvent.outp : CallEvent → PyVal
  | .fitTransformCall _ _ _ _ out => out
  | .fitCall _ _ _ _ => .pynone
  | .transformCall _ _ out => out
  | .predictCall _ _ out => out

/-- Tag of the step whose method the event records. -/
def CallEvent.tagOf : CallEvent → String
  | .fitTransformCall tag _ _ _ _ => tag
  | .fitCall tag _ _ _ => tag
  | .transformCall tag _ _ => tag
  | .predictCall tag _ _ => tag

/-- Discriminator: is the event a `fit_transform` invocation? -/
def CallEvent.isFT : CallEvent → Bool
  | .fitTransformCall _ _ _ _ _ => true
  | _ => false

/-- Discriminator: is the event a `fit` (only) invocation? -/
def CallEvent.isFitOnly : CallEvent → Bool
  | .fitCall _ _ _ _ => true
  | _ => false

/-- Placeholder event used as the `List.getD` default. -/
def dummyEvent : CallEvent := .fitCall "" .pynone .pynone .pynone

/-- Placeholder step entry used as the `List.getD` default. -/
def dummyStep : String × StepDef :=
  ("", ⟨.pynone, fun s _ _ _ => s, fun s _ _ _ => (s, .pynone),
   fun _ X => X, fun _ X => X, fun s => s⟩)

/-- Tag of the step entry at position `i` of a steps list. -/
def tagAt (steps : List (String × StepDef)) (i : Nat) : String :=
  (steps.getD i dummyStep).1

/-- Discriminator: does a pipeline result carry an explicit not-fitted
error? -/
def isNotFittedErr : Except PyErr PyVal → Bool
  | .error (.notFittedError _) => true
  | _ => false

/-- The `rules` attribute of the last fitted step held in `steps_`
(`none` when `steps_` is unset). -/
def lastStepRules (steps_fitted : Option (List (String × StepDef))) :
    Option PyVal :=
  match steps_fitted with
  | none => none
  | some fs =>
    some ((fs.getLastD dummyStep).2.rulesF (fs.getLastD dummyStep).2.st)

/-- Input recorded at position `i` of an event log. -/
def evInpAt (evs : List CallEvent) (i : Nat) : PyVal :=
  (evs.getD i dummyEvent).inp

/-- Output recorded at position `i` of an event log. -/
def evOutAt (evs : List CallEvent) (i : Nat) : PyVal :=
  (evs.getD i dummyEvent).outp

/-- Pipeline object.  `steps` and `use_init_data` are set at construction;
`steps_` and `rules` are the attributes assigned by `fit` (modelled as
`Option`: `none` means the Python attribute is unset, so reading it raises
`AttributeError`). -/
structure LinearPipeline where
  steps : List (String × StepDef)
  use_init_data : Option (List String)
  steps_ : Option (List (String × StepDef))
  rules : Option PyVal

/-- Embedding of `LinearPipeline._return_X`: if `use_init_data` is not `None`
and the step's tag is in it, return `X_init`, else return the running `X`. -/
def returnX (use_init_data : Option (List String)) (step_tag : String)
    (X X_init : PyVal) : PyVal :=
  match use_init_data with
  | some l => if step_tag ∈ l then X_init else X
  | none => X

/-- Embedding of `LinearPipeline._copy_X_if_use_init_data`: if
`use_init_data` is truthy (not `None` and not the empty list), return
`X.copy()`, else return `None`. -/
def copyXIfUseInitData (use_init_data : Option (List String)) (X : PyVal) :
    PyVal :=
  match use_init_data with
  | some l => if l.isEmpty then .pynone else X.pycopy
  | none => .pynone

/-- Splits a list into `(front, last)`; `none` on the empty list (where
Python's `lst[-1]` raises `IndexError`). -/
def splitLast {α : Type} : List α → Option (List α × α)
  | [] => none
  | [a] => some ([], a)
  | a :: b :: rest =>
    match splitLast (b :: rest) with
    | some (f, l) => some (a :: f, l)
    | none => some ([], a)

/-- Modelled from the spec: `_BasePipeline._pipeline_fit_transform` is not
under the source tree; per the spec the executor runs "the step's combined
fit-and-transform, feeding its output forward".  The step's mutated copy,
the output, and the logged event are returned. -/
def pipelineFitTransform (step_tag : String) (s : StepDef)
    (X y sw : PyVal) : StepDef × PyVal × CallEvent :=
  let p := s.fitTransformF s.st X y sw
  ({ s with st := p.1 }, p.2, .fitTransformCall step_tag X y sw p.2)

/-- Modelled from the spec: `_BasePipeline._pipeline_fit` is not under the
source tree; per the spec the last step is run via "fit only (not
fit-transform)", mutating the step's internal attribute namespace. -/
def pipelineFit (step_tag : String) (s : StepDef) (X y sw : PyVal) :
    StepDef × CallEvent :=
  ({ s with st := s.fitF s.st X y sw }, .fitCall step_tag X y sw)

/-- Modelled from the spec: `_BasePipeline._pipeline_transform` is not under
the source tree; per the spec it runs the step's (post-fit, non-mutating)
transform on the effective input. -/
def pipelineTransform (step_tag : String) (s : StepDef) (X : PyVal) :
    PyVal × CallEvent :=
  let out := s.transformF s.st X
  (out, .transformCall step_tag X out)

/-- Modelled from the spec: `_BasePipeline._pipeline_predict` is not under
the source tree; per the spec it invokes the last step's predict capability,
"returning a prediction series rather than a table". -/
def pipelinePredict (step_tag : String) (s : StepDef) (X : PyVal) :
    PyVal × CallEvent :=
  let out := s.predictF s.st X
  (out, .predictCall step_tag X out)

/-- Embedding of the `for step_tag, step in self.steps_[:-1]` loop of
`LinearPipeline.fit`: per step, resolve the effective input via `_return_X`,
run `_pipeline_fit_transform`, and feed the output forward.  Returns the
fitted step copies, the running `X` after the loop, and the event log. -/
def fitLoop (use_init_data : Option (List String)) (X_init y sw : PyVal) :
    List (String × StepDef) → PyVal →
    List (String × StepDef) × PyVal × List CallEvent
  | [], X => ([], X, [])
  | (step_tag, s) :: rest, X =>
    let X1 := returnX use_init_data step_tag X X_init
    let r1 := pipelineFitTransform step_tag s X1 y sw
    let r2 := fitLoop use_init_data X_init y sw rest r1.2.1
    ((step_tag, r1.1) :: r2.1, r2.2.1, r1.2.2 :: r2.2.2)

/-- Embedding of the `for step_tag, step in self.steps_` loop of
`LinearPipeline.transform` (also the `[:-1]` prefix loop of `predict`):
per step, resolve the effective input and run `_pipeline_transform`,
forwarding outputs. -/
def transformLoop (use_init_data : Option (List String)) (X_init : PyVal) :
    List (String × StepDef) → PyVal → PyVal × List CallEvent
  | [], X => (X, [])
  | (step_tag, s) :: rest, X =>
    let X1 := returnX use_init_data step_tag X X_init
    let r1 := pipelineTransform step_tag s X1
    let r2 := transformLoop use_init_data X_init rest r1.1
    (r2.1, r1.2 :: r2.2)

/-- Validation prefix of `LinearPipeline.fit`: `check_allowed_types` on `X`
(`PandasDataFrame` or `Dictionary`), then `y` (`PandasSeries` or
`Dictionary`), then — only when not `None` — `sample_weight`. -/
def validateFitArgs (X y sw : PyVal) : Option PyErr :=
  match checkAllowedTypes X "X" [.kframe, .kdict] with
  | some e => some e
  | none =>
    match checkAllowedTypes y "y" [.kseries, .kdict] with
    | some e => some e
    | none =>
      if sw = PyVal.pynone then none
      else checkAllowedTypes sw "sample_weight" [.kseries, .kdict]

/-- Embedding of `LinearPipeline.fit`: validate argument types, take
`X_init` via `_copy_X_if_use_init_data`, deep-copy `steps` into `steps_`
(value copy in this pure embedding), run `fit_transform` on every step but
the last (feeding outputs forward through `_return_X`), run `fit` on the
last step, and set `self.rules` to the last step's `rules`.  Returns the
updated pipeline, the event log, and the raised error if any (the returned
pipeline carries whatever attribute assignments happened before the
raise). -/
def LinearPipeline.fit (p : LinearPipeline) (X y sw : PyVal) :
    LinearPipeline × List CallEvent × Option PyErr :=
  match validateFitArgs X y sw with
  | some e => (p, [], some e)
  | none =>
    let X_init := copyXIfUseInitData p.use_init_data X
    match splitLast p.steps with
    | none => ({ p with steps_ := some [] }, [], some .indexError)
    | some (front, lst) =>
      let r := fitLoop p.use_init_data X_init y sw front X
      let Xl := returnX p.use_init_data lst.1 r.2.1 X_init
      let rl := pipelineFit lst.1 lst.2 Xl y sw
      ({ p with steps_ := some (r.1 ++ [(lst.1, rl.1)]),
                rules := some (rl.1.rulesF rl.1.st) },
       r.2.2 ++ [rl.2], none)

/-- Embedding of `LinearPipeline.transform`: validate `X`, re-derive
`X_init`, then run every step's transform in order (reading `self.steps_`
raises `AttributeError` when `fit` has not set it), returning the final
output. -/
def LinearPipeline.transform (p : LinearPipeline) (X : PyVal) :
    LinearPipeline × List CallEvent × Except PyErr PyVal :=
  match checkAllowedTypes X "X" [.kframe, .kdict] with
  | some e => (p, [], .error e)
  | none =>
    let X_init := copyXIfUseInitData p.use_init_data X
    match p.steps_ with
    | none => (p, [], .error (.attributeError "steps_"))
    | some fsteps =>
      let r := transformLoop p.use_init_data X_init fsteps X
      (p, r.2, .ok r.1)

/-- Embedding of `LinearPipeline.predict`: validate `X`, re-derive `X_init`,
run every step's transform but the last (reading `self.steps_` raises
`AttributeError` when unset, and `steps_[-1]` raises `IndexError` when
empty), then invoke the last step's predict. -/
def LinearPipeline.predict (p : LinearPipeline) (X : PyVal) :
    LinearPipeline × List CallEvent × Except PyErr PyVal :=
  match checkAllowedTypes X "X" [.kframe, .kdict] with
  | some e => (p, [], .error e)
  | none =>
    let X_init := copyXIfUseInitData p.use_init_data X
    match p.steps_ with
    | none => (p, [], .error (.attributeError "steps_"))
    | some fsteps =>
      match splitLast fsteps with
      | none => (p, [], .error .indexError)
      | some (front, lst) =>
        let r := transformLoop p.use_init_data X_init front X
        let Xl := returnX p.use_init_data lst.1 r.1 X_init
        let rl := pipelinePredict lst.1 lst.2 Xl
        (p, r.2 ++ [rl.2], .ok rl.1)

/-- Embedding of `LinearPipeline.fit_transform`: `self.fit(...)` then
`return self.transform(X=X)` on the same original `X`. -/
def LinearPipeline.fit_transform (p : LinearPipeline) (X y sw : PyVal) :
    LinearPipeline × List CallEvent × Except PyErr PyVal :=
  let rf := p.fit X y sw
  match rf.2.2 with
  | some e => (rf.1, rf.2.1, .error e)
  | none =>
    let rt := rf.1.transform X
    (rt.1, rf.2.1 ++ rt.2.1, rt.2.2)

/-- Embedding of `LinearPipeline.fit_predict`: `self.fit(...)` then
`return self.predict(X=X)`. -/
def LinearPipeline.fit_predict (p : LinearPipeline) (X y sw : PyVal) :
    LinearPipeline × List CallEvent × Except PyErr PyVal :=
  let rf := p.fit X y sw
  match rf.2.2 with
  | some e => (rf.1, rf.2.1, .error e)
  | none =>
    let rp := rf.1.predict X
    (rp.1, rf.2.1 ++ rp.2.1, rp.2.2)

/-- Embedding of `LinearPipeline.__init__`: check `use_init_data` is a list
or `None` (eagerly, at construction) and store the configuration.
`_BasePipeline.__init__` is not under the source tree; modelled from the
spec: it stores the ordered `steps`, and `steps_`/`rules` exist only once
`fit` assigns them. -/
def mkLinearPipeline (steps : List (String × StepDef)) (use_init_data : PyVal) :
    Except PyErr LinearPipeline :=
  match checkAllowedTypes use_init_data "use_init_data" [.klist, .knone] with
  | some e => .error e
  | none =>
    let u : Option (List String) :=
      match use_init_data with
      | .strlist l => some l
      | _ => none
    .ok { steps := steps, use_init_data := u, steps_ := none, rules := none }

/-! ## Concrete fixtures used to instantiate the theorems -/

/-- Sample table input. -/
def wX : PyVal := .frame ⟨0, [[5, 6], [7, 8]]⟩

/-- Sample target input. -/
def wY : PyVal := .series ⟨0, [0, 1]⟩

/-- Sample generator-like step: its `fit_transform`/`transform` outputs are
fresh tables different from its input, so chaining is observable. -/
def stepA : StepDef :=
  { st := .obj "A0"
    fitF := fun _ X _ _ => X
    fitTransformF := fun _ _ _ _ => (.obj "A1", .frame ⟨100, [[1]]⟩)
    transformF := fun _ _ => .frame ⟨101, [[2]]⟩
    predictF := fun _ _ => .series ⟨102, [1]⟩
    rulesF := fun _ => .obj "rulesA" }

/-- Sample optimiser-like step: records the `X` it was fitted on in its
state, so the input it received is observable from its fitted state. -/
def stepB : StepDef :=
  { st := .obj "B0"
    fitF := fun _ X _ _ => X
    fitTransformF := fun _ X _ _ => (X, .frame ⟨200, [[3]]⟩)
    transformF := fun _ _ => .frame ⟨201, [[4]]⟩
    predictF := fun _ _ => .series ⟨202, [0]⟩
    rulesF := fun s => s }

/-- Two-step pipeline with `use_init_data = ["opt"]`. -/
def wPipeInit : LinearPipeline :=
  { steps := [("gen", stepA), ("opt", stepB)]
    use_init_data := some ["opt"]
    steps_ := none
    rules := none }

/-- Two-step pipeline with `use_init_data = None`. -/
def wPipeChain : LinearPipeline :=
  { steps := [("gen", stepA), ("opt", stepB)]
    use_init_data := none
    steps_ := none
    rules := none }

/-- Two-step pipeline whose first step's tag is in `use_init_data`. -/
def wPipeFirst : LinearPipeline :=
  { steps := [("gen", stepA), ("opt", stepB)]
    use_init_data := some ["gen"]
    steps_ := none
    rules := none }

end Iguanas

namespace Iguanas

/-! ## Helper lemmas about the loops -/

theorem returnX_of_mem {l : List String} {tag : String} (X Xi : PyVal)
    (h : tag ∈ l) : returnX (some l) tag X Xi = Xi := by
  simp [returnX, h]

theorem returnX_trivial {u : Option (List String)} (tag : String) (X Xi : PyVal)
    (h : u = none ∨ u = some []) : returnX u tag X Xi = X := by
  rcases h with h | h <;> simp [returnX, h]

theorem copyXIfUseInitData_trivial {u : Option (List String)} (X : PyVal)
    (h : u = none ∨ u = some []) : copyXIfUseInitData u X = .pynone := by
  rcases h with h | h <;> simp [copyXIfUseInitData, h]

theorem copyXIfUseInitData_of_ne_nil {l : List String} (X : PyVal)
    (h : l ≠ []) : copyXIfUseInitData (some l) X = X.pycopy := by
  simp [copyXIfUseInitData, List.isEmpty_iff, h]

theorem fitLoop_length (u : Option (List String)) (Xi y sw : PyVal) :
    ∀ (front : List (String × StepDef)) (X : PyVal),
      ((fitLoop u Xi y sw front X).2.2).length = front.length := by
  intro front
  induction front with
  | nil => intro X; rfl
  | cons hd tl ih =>
    intro X
    obtain ⟨tag, s⟩ := hd
    simp [fitLoop, ih]

theorem fitLoop_isFT (u : Option (List String)) (Xi y sw : PyVal) :
    ∀ (front : List (String × StepDef)) (X : PyVal) (i : Nat),
      i < front.length →
      (((fitLoop u Xi y sw front X).2.2).getD i dummyEvent).isFT = true := by
  intro front
  induction front with
  | nil => intro X i h; exact absurd h (Nat.not_lt_zero i)
  | cons hd tl ih =>
    intro X i h
    obtain ⟨tag, s⟩ := hd
    match i with
    | 0 => simp [fitLoop, pipelineFitTransform, CallEvent.isFT]
    | i + 1 =>
      have h' : i < tl.length := Nat.lt_of_succ_lt_succ h
      simpa [fitLoop] using ih _ i h'

theorem fitLoop_tagOf (u : Option (List String)) (Xi y sw : PyVal) :
    ∀ (front : List (String × StepDef)) (X : PyVal) (i : Nat),
      i < front.length →
      (((fitLoop u Xi y sw front X).2.2).getD i dummyEvent).tagOf =
        tagAt front i := by
  intro front
  induction front with
  | nil => intro X i h; exact absurd h (Nat.not_lt_zero i)
  | cons hd tl ih =>
    intro X i h
    obtain ⟨tag, s⟩ := hd
    match i with
    | 0 => simp [fitLoop, pipelineFitTransform, CallEvent.tagOf, tagAt]
    | i + 1 =>
      have h' : i < tl.length := Nat.lt_of_succ_lt_succ h
      simpa [fitLoop, tagAt] using ih _ i h'

theorem fitLoop_inp_of_mem {l : List String} (Xi y sw : PyVal) :
    ∀ (front : List (String × StepDef)) (X : PyVal) (i : Nat),
      i < front.length → tagAt front i ∈ l →
      evInpAt ((fitLoop (some l) Xi y sw front X).2.2) i = Xi := by
  intro front
  induction front with
  | nil => intro X i h; exact absurd h (Nat.not_lt_zero i)
  | cons hd tl ih =>
    intro X i h hmem
    obtain ⟨tag, s⟩ := hd
    match i with
    | 0 =>
      have : tag ∈ l := by simpa [tagAt] using hmem
      simp [fitLoop, pipelineFitTransform, evInpAt, CallEvent.inp,
        returnX_of_mem _ _ this]
    | i + 1 =>
      have h' : i < tl.length := Nat.lt_of_succ_lt_succ h
      have hmem' : tagAt tl i ∈ l := by simpa [tagAt] using hmem
      simpa [fitLoop, evInpAt] using ih _ i h' hmem'

theorem fitLoop_inp_zero (u : Option (List String)) (Xi y sw : PyVal)
    (front : List (String × StepDef)) (X : PyVal) (h : 0 < front.length) :
    evInpAt ((fitLoop u Xi y sw front X).2.2) 0 =
      returnX u (tagAt front 0) X Xi := by
  match front with
  | [] => exact absurd h (Nat.lt_irrefl 0)
  | (tag, s) :: tl =>
    simp [fitLoop, pipelineFitTransform, evInpAt, CallEvent.inp, tagAt]

theorem fitLoop_chain (u : Option (List String)) (Xi y sw : PyVal) :
    ∀ (front : List (String × StepDef)) (X : PyVal) (i : Nat),
      i + 1 < front.length →
      evInpAt ((fitLoop u Xi y sw front X).2.2) (i + 1) =
        returnX u (tagAt front (i + 1))
          (evOutAt ((fitLoop u Xi y sw front X).2.2) i) Xi := by
  intro front
  induction front with
  | nil => intro X i h; exact absurd h (Nat.not_lt_zero _)
  | cons hd tl ih =>
    intro X i h
    obtain ⟨tag, s⟩ := hd
    match i with
    | 0 =>
      have h' : 0 < tl.length := Nat.lt_of_succ_lt_succ h
      have hz := fitLoop_inp_zero u Xi y sw tl
        ((pipelineFitTransform tag s (returnX u tag X Xi) y sw).2.1) h'
      simpa [fitLoop, evInpAt, evOutAt, CallEvent.outp, tagAt,
        pipelineFitTransform] using hz
    | i + 1 =>
      have h' : i + 1 < tl.length := Nat.lt_of_succ_lt_succ h
      simpa [fitLoop, evInpAt, evOutAt, tagAt] using ih _ i h'

theorem fitLoop_out_last (u : Option (List String)) (Xi y sw : PyVal) :
    ∀ (front : List (String × StepDef)) (X : PyVal), 0 < front.length →
      (fitLoop u Xi y sw front X).2.1 =
        evOutAt ((fitLoop u Xi y sw front X).2.2) (front.length - 1) := by
  intro front
  induction front with
  | nil => intro X h; exact absurd h (Nat.lt_irrefl 0)
  | cons hd tl ih =>
    intro X _
    obtain ⟨tag, s⟩ := hd
    cases tl with
    | nil => simp [fitLoop, evOutAt, CallEvent.outp, pipelineFitTransform]
    | cons t2 tl2 =>
      have ih' := ih ((pipelineFitTransform tag s (returnX u tag X Xi) y sw).2.1)
        (Nat.succ_pos _)
      simpa [fitLoop, evOutAt, Nat.add_sub_cancel] using ih'

theorem transformLoop_length (u : Option (List String)) (Xi : PyVal) :
    ∀ (steps : List (String × StepDef)) (X : PyVal),
      ((transformLoop u Xi steps X).2).length = steps.length := by
  intro steps
  induction steps with
  | nil => intro X; rfl
  | cons hd tl ih =>
    intro X
    obtain ⟨tag, s⟩ := hd
    simp [transformLoop, ih]

theorem transformLoop_inp_of_mem {l : List String} (Xi : PyVal) :
    ∀ (steps : List (String × StepDef)) (X : PyVal) (i : Nat),
      i < steps.length → tagAt steps i ∈ l →
      evInpAt ((transformLoop (some l) Xi steps X).2) i = Xi := by
  intro steps
  induction steps with
  | nil => intro X i h; exact absurd h (Nat.not_lt_zero i)
  | cons hd tl ih =>
    intro X i h hmem
    obtain ⟨tag, s⟩ := hd
    match i with
    | 0 =>
      have : tag ∈ l := by simpa [tagAt] using hmem
      simp [transformLoop, pipelineTransform, evInpAt, CallEvent.inp,
        returnX_of_mem _ _ this]
    | i + 1 =>
      have h' : i < tl.length := Nat.lt_of_succ_lt_succ h
      have hmem' : tagAt tl i ∈ l := by simpa [tagAt] using hmem
      simpa [transformLoop, evInpAt] using ih _ i h' hmem'

theorem transformLoop_inp_zero (u : Option (List String)) (Xi : PyVal)
    (steps : List (String × StepDef)) (X : PyVal) (h : 0 < steps.length) :
    evInpAt ((transformLoop u Xi steps X).2) 0 =
      returnX u (tagAt steps 0) X Xi := by
  match steps with
  | [] => exact absurd h (Nat.lt_irrefl 0)
  | (tag, s) :: tl =>
    simp [transformLoop, pipelineTransform, evInpAt, CallEvent.inp, tagAt]

theorem transformLoop_chain (u : Option (List String)) (Xi : PyVal) :
    ∀ (steps : List (String × StepDef)) (X : PyVal) (i : Nat),
      i + 1 < steps.length →
      evInpAt ((transformLoop u Xi steps X).2) (i + 1) =
        returnX u (tagAt steps (i + 1))
          (evOutAt ((transformLoop u Xi steps X).2) i) Xi := by
  intro steps
  induction steps with
  | nil => intro X i h; exact absurd h (Nat.not_lt_zero _)
  | cons hd tl ih =>
    intro X i h
    obtain ⟨tag, s⟩ := hd
    match i with
    | 0 =>
      have h' : 0 < tl.length := Nat.lt_of_succ_lt_succ h
      have hz := transformLoop_inp_zero u Xi tl
        ((pipelineTransform tag s (returnX u tag X Xi)).1) h'
      simpa [transformLoop, evInpAt, evOutAt, CallEvent.outp, tagAt,
        pipelineTransform] using hz
    | i + 1 =>
      have h' : i + 1 < tl.length := Nat.lt_of_succ_lt_succ h
      simpa [transformLoop, evInpAt, evOutAt, tagAt] using ih _ i h'

theorem transformLoop_out_last (u : Option (List String)) (Xi : PyVal) :
    ∀ (steps : List (String × StepDef)) (X : PyVal), 0 < steps.length →
      (transformLoop u Xi steps X).1 =
        evOutAt ((transformLoop u Xi steps X).2) (steps.length - 1) := by
  intro steps
  induction steps with
  | nil => intro X h; exact absurd h (Nat.lt_irrefl 0)
  | cons hd tl ih =>
    intro X _
    obtain ⟨tag, s⟩ := hd
    cases tl with
    | nil => simp [transformLoop, evOutAt, CallEvent.outp, pipelineTransform]
    | cons t2 tl2 =>
      have ih' := ih ((pipelineTransform tag s (returnX u tag X Xi)).1)
        (Nat.succ_pos _)
      simpa [transformLoop, evOutAt, Nat.add_sub_cancel] using ih'

theorem transformLoop_out_nil (u : Option (List String)) (Xi X : PyVal) :
    (transformLoop u Xi [] X).1 = X := rfl

theorem splitLast_append {α : Type} (a : α) :
    ∀ (front : List α), splitLast (front ++ [a]) = some (front, a) := by
  intro front
  induction front with
  | nil => rfl
  | cons hd tl ih =>
    cases tl with
    | nil => simp [splitLast]
    | cons t2 tl2 => simp_all [splitLast]

theorem exists_front_last {α : Type} :
    ∀ (xs : List α), xs ≠ [] → ∃ front lst, xs = front ++ [lst] := by
  intro xs
  induction xs with
  | nil => intro h; exact absurd rfl h
  | cons hd tl ih =>
    intro _
    cases tl with
    | nil => exact ⟨[], hd, rfl⟩
    | cons t2 tl2 =>
      obtain ⟨front, lst, hfl⟩ := ih (by simp)
      exact ⟨hd :: front, lst, by simp [hfl]⟩

theorem validateFitArgs_none {X y sw : PyVal}
    (hX : X.kind ∈ [PyKind.kframe, PyKind.kdict])
    (hy : y.kind ∈ [PyKind.kseries, PyKind.kdict])
    (hsw : sw = PyVal.pynone ∨ sw.kind ∈ [PyKind.kseries, PyKind.kdict]) :
    validateFitArgs X y sw = none := by
  rcases hsw with h | h
  · simp [validateFitArgs, checkAllowedTypes, hX, hy, h]
  · by_cases hsp : sw = PyVal.pynone
    · simp [validateFitArgs, checkAllowedTypes, hX, hy, hsp]
    · simp [validateFitArgs, checkAllowedTypes, hX, hy, hsp, h]

/-- Characterization of a successful `fit` on a non-empty steps list. -/
theorem fit_decomp (p : LinearPipeline) (X y sw : PyVal)
    (front : List (String × StepDef)) (lst : String × StepDef)
    (hv : validateFitArgs X y sw = none)
    (hs : p.steps = front ++ [lst]) :
    p.fit X y sw =
      ({ p with
          steps_ := some ((fitLoop p.use_init_data
              (copyXIfUseInitData p.use_init_data X) y sw front X).1 ++
            [(lst.1, (pipelineFit lst.1 lst.2
                (returnX p.use_init_data lst.1
                  (fitLoop p.use_init_data
                    (copyXIfUseInitData p.use_init_data X) y sw front X).2.1
                  (copyXIfUseInitData p.use_init_data X)) y sw).1)]),
          rules := some ((pipelineFit lst.1 lst.2
              (returnX p.use_init_data lst.1
                (fitLoop p.use_init_data
                  (copyXIfUseInitData p.use_init_data X) y sw front X).2.1
                (copyXIfUseInitData p.use_init_data X)) y sw).1.rulesF
            ((pipelineFit lst.1 lst.2
              (returnX p.use_init_data lst.1
                (fitLoop p.use_init_data
                  (copyXIfUseInitData p.use_init_data X) y sw front X).2.1
                (copyXIfUseInitData p.use_init_data X)) y sw).1.st)) },
       (fitLoop p.use_init_data
           (copyXIfUseInitData p.use_init_data X) y sw front X).2.2 ++
         [(pipelineFit lst.1 lst.2
             (returnX p.use_init_data lst.1
               (fitLoop p.use_init_data
                 (copyXIfUseInitData p.use_init_data X) y sw front X).2.1
               (copyXIfUseInitData p.use_init_data X)) y sw).2],
       none) := by
  simp [LinearPipeline.fit, hv, hs, splitLast_append]

/-- The `steps` and `use_init_data` attributes survive any `fit` call. -/
theorem fit_preserves_config (p : LinearPipeline) (X y sw : PyVal) :
    (p.fit X y sw).1.steps = p.steps ∧
    (p.fit X y sw).1.use_init_data = p.use_init_data := by
  unfold LinearPipeline.fit
  constructor <;> (split <;> try rfl) <;> (split <;> rfl)

theorem getLastD_append_singleton {α : Type} (a d : α) :
    ∀ (front : List α), (front ++ [a]).getLastD d = a := by
  intro front
  induction front with
  | nil => rfl
  | cons hd tl ih => simp [List.getLastD, ih]

theorem fit_events_length (p : LinearPipeline) (X y sw : PyVal)
    (front : List (String × StepDef)) (lst : String × StepDef)
    (hv : validateFitArgs X y sw = none) (hs : p.steps = front ++ [lst]) :
    ((p.fit X y sw).2.1).length = p.steps.length := by
  rw [fit_decomp p X y sw front lst hv hs]
  simp [fitLoop_length, hs]

theorem fit_ev_inp_lt (p : LinearPipeline) (X y sw : PyVal)
    (front : List (String × StepDef)) (lst : String × StepDef)
    (hv : validateFitArgs X y sw = none) (hs : p.steps = front ++ [lst])
    (i : Nat) (hi : i < front.length) :
    evInpAt ((p.fit X y sw).2.1) i =
      evInpAt ((fitLoop p.use_init_data
        (copyXIfUseInitData p.use_init_data X) y sw front X).2.2) i := by
  rw [fit_decomp p X y sw front lst hv hs]
  have hlen : i < ((fitLoop p.use_init_data
      (copyXIfUseInitData p.use_init_data X) y sw front X).2.2).length := by
    rw [fitLoop_length]; exact hi
  simp only [evInpAt]
  rw [List.getD_append _ _ _ _ hlen]

theorem fit_ev_out_lt (p : LinearPipeline) (X y sw : PyVal)
    (front : List (String × StepDef)) (lst : String × StepDef)
    (hv : validateFitArgs X y sw = none) (hs : p.steps = front ++ [lst])
    (i : Nat) (hi : i < front.length) :
    evOutAt ((p.fit X y sw).2.1) i =
      evOutAt ((fitLoop p.use_init_data
        (copyXIfUseInitData p.use_init_data X) y sw front X).2.2) i := by
  rw [fit_decomp p X y sw front lst hv hs]
  have hlen : i < ((fitLoop p.use_init_data
      (copyXIfUseInitData p.use_init_data X) y sw front X).2.2).length := by
    rw [fitLoop_length]; exact hi
  simp only [evOutAt]
  rw [List.getD_append _ _ _ _ hlen]

theorem fit_ev_getD_lt (p : LinearPipeline) (X y sw : PyVal)
    (front : List (String × StepDef)) (lst : String × StepDef)
    (hv : validateFitArgs X y sw = none) (hs : p.steps = front ++ [lst])
    (i : Nat) (hi : i < front.length) :
    ((p.fit X y sw).2.1).getD i dummyEvent =
      ((fitLoop p.use_init_data
        (copyXIfUseInitData p.use_init_data X) y sw front X).2.2).getD i
        dummyEvent := by
  rw [fit_decomp p X y sw front lst hv hs]
  have hlen : i < ((fitLoop p.use_init_data
      (copyXIfUseInitData p.use_init_data X) y sw front X).2.2).length := by
    rw [fitLoop_length]; exact hi
  exact List.getD_append _ _ _ _ hlen

theorem fit_ev_last (p : LinearPipeline) (X y sw : PyVal)
    (front : List (String × StepDef)) (lst : String × StepDef)
    (hv : validateFitArgs X y sw = none) (hs : p.steps = front ++ [lst]) :
    ((p.fit X y sw).2.1).getD front.length dummyEvent =
      CallEvent.fitCall lst.1
        (returnX p.use_init_data lst.1
          (fitLoop p.use_init_data
            (copyXIfUseInitData p.use_init_data X) y sw front X).2.1
          (copyXIfUseInitData p.use_init_data X)) y sw := by
  rw [fit_decomp p X y sw front lst hv hs]
  have hlen : ((fitLoop p.use_init_data
      (copyXIfUseInitData p.use_init_data X) y sw front X).2.2).length =
      front.length := fitLoop_length _ _ _ _ _ _
  have hle : ((fitLoop p.use_init_data
      (copyXIfUseInitData p.use_init_data X) y sw front X).2.2).length ≤
      front.length := le_of_eq hlen
  rw [List.getD_append_right _ _ _ _ hle, hlen]
  simp [pipelineFit]

end Iguanas

namespace Iguanas

/-- C3: resolving a `ClassAccessor` against `pipeline_params` returns exactly
`pipeline_params[class_tag][class_attribute]` when both keys are present;
raises a `ValueError` naming the missing tag (never a sentinel `.ok`) when
`class_tag` is absent; and propagates the namespace `KeyError` unmodified
when the tag is present but the attribute is absent. -/
theorem classAccessor_get_spec (c : ClassAccessor)
    (pp : List (String × List (String × PyVal))) :
    (∀ ns v, dictLookup pp c.class_tag = some ns →
      dictLookup ns c.class_attribute = some v →
      c.get pp = .ok v) ∧
    (dictLookup pp c.class_tag = none →
      c.get pp = .error (.valueError
        ("There are no steps in pipeline corresponding to class_tag=" ++
          c.class_tag))) ∧
    (∀ ns, dictLookup pp c.class_tag = some ns →
      dictLookup ns c.class_attribute = none →
      c.get pp = .error (.keyError c.class_attribute)) := by
  refine ⟨?_, ?_, ?_⟩
  · intro ns v hns hv
    simp [ClassAccessor.get, hns, hv]
  · intro h
    simp [ClassAccessor.get, h]
  · intro ns hns hv
    simp [ClassAccessor.get, hns, hv]

/-- Witness for C3: a concrete state mapping exercising all three branches. -/
theorem classAccessor_get_spec_witness :
    (ClassAccessor.get ⟨"gen", "rules"⟩ [("gen", [("rules", PyVal.obj "R")])]
      = .ok (PyVal.obj "R")) ∧
    (ClassAccessor.get ⟨"opt", "rules"⟩ [("gen", [("rules", PyVal.obj "R")])]
      = .error (.valueError
        "There are no steps in pipeline corresponding to class_tag=opt")) ∧
    (ClassAccessor.get ⟨"gen", "weights"⟩ [("gen", [("rules", PyVal.obj "R")])]
      = .error (.keyError "weights")) := by
  refine ⟨?_, ?_, ?_⟩
  · exact (classAccessor_get_spec ⟨"gen", "rules"⟩
      [("gen", [("rules", PyVal.obj "R")])]).1 _ _ rfl rfl
  · exact (classAccessor_get_spec ⟨"opt", "rules"⟩
      [("gen", [("rules", PyVal.obj "R")])]).2.1 rfl
  · exact (classAccessor_get_spec ⟨"gen", "weights"⟩
      [("gen", [("rules", PyVal.obj "R")])]).2.2 _ rfl rfl

/-- C2: for a pipeline whose `use_init_data` is `None` or the empty list,
`fit` is strictly chained — step 0 receives the original input `X` and every
later step receives exactly its predecessor's output — and no defensive copy
of `X` is made (`X_init` is `None`). -/
theorem fit_strictly_chained (p : LinearPipeline) (X y sw : PyVal)
    (hu : p.use_init_data = none ∨ p.use_init_data = some [])
    (hne : p.steps ≠ [])
    (hX : X.kind ∈ [PyKind.kframe, PyKind.kdict])
    (hy : y.kind ∈ [PyKind.kseries, PyKind.kdict])
    (hsw : sw = PyVal.pynone ∨ sw.kind ∈ [PyKind.kseries, PyKind.kdict]) :
    copyXIfUseInitData p.use_init_data X = PyVal.pynone ∧
    ((p.fit X y sw).2.1).length = p.steps.length ∧
    evInpAt ((p.fit X y sw).2.1) 0 = X ∧
    ∀ i, i + 1 < p.steps.length →
      evInpAt ((p.fit X y sw).2.1) (i + 1) =
        evOutAt ((p.fit X y sw).2.1) i := by
  obtain ⟨front, lst, hfl⟩ := exists_front_last p.steps hne
  have hv := validateFitArgs_none hX hy hsw
  refine ⟨copyXIfUseInitData_trivial X hu,
    fit_events_length p X y sw front lst hv hfl, ?_, ?_⟩
  · cases front with
    | nil =>
      have h0 := fit_ev_last p X y sw [] lst hv hfl
      simp only [List.length_nil] at h0
      simp only [evInpAt, h0, CallEvent.inp]
      exact returnX_trivial _ _ _ hu
    | cons f0 front' =>
      rw [fit_ev_inp_lt p X y sw (f0 :: front') lst hv hfl 0 (by simp),
        fitLoop_inp_zero _ _ _ _ _ _ (by simp),
        returnX_trivial _ _ _ hu]
  · intro i hi
    have hlen : p.steps.length = front.length + 1 := by simp [hfl]
    have hi' : i < front.length := by omega
    rcases Nat.lt_or_ge (i + 1) front.length with hcase | hcase
    · rw [fit_ev_inp_lt p X y sw front lst hv hfl (i + 1) hcase,
        fitLoop_chain _ _ _ _ front X i hcase,
        returnX_trivial _ _ _ hu,
        fit_ev_out_lt p X y sw front lst hv hfl i hi']
    · have hEq : i + 1 = front.length := by omega
      have hpos : 0 < front.length := by omega
      have hlast := fit_ev_last p X y sw front lst hv hfl
      rw [← hEq] at hlast
      rw [fit_ev_out_lt p X y sw front lst hv hfl i hi']
      simp only [evInpAt, hlast, CallEvent.inp]
      rw [returnX_trivial _ _ _ hu,
        fitLoop_out_last p.use_init_data _ y sw front X hpos]
      have hsub : front.length - 1 = i := by omega
      rw [hsub]

/-- Witness for C2 on a concrete two-step pipeline without `use_init_data`:
the second step's recorded input is the first step's output, not the
original `X`. -/
theorem fit_strictly_chained_witness :
    wPipeChain.use_init_data = none ∧
    evInpAt ((wPipeChain.fit wX wY PyVal.pynone).2.1) 0 = wX ∧
    evInpAt ((wPipeChain.fit wX wY PyVal.pynone).2.1) 1 =
      evOutAt ((wPipeChain.fit wX wY PyVal.pynone).2.1) 0 := by
  have h := fit_strictly_chained wPipeChain wX wY PyVal.pynone
    (Or.inl rfl) (by simp [wPipeChain]) (by decide) (by decide) (Or.inl rfl)
  exact ⟨rfl, h.2.2.1, h.2.2.2 0 (by decide)⟩

/-- C5: during `fit`, every step except the last is run via its combined
`fit_transform` (one event per step, in order, bearing the step's tag, with
the running input resolved from the previous output via `_return_X`), the
last step is run via `fit` only, and afterwards the pipeline's `rules`
attribute equals the `rules` attribute of the fitted last step stored in
`steps_`. -/
theorem fit_runs_fitTransform_then_fit (p : LinearPipeline) (X y sw : PyVal)
    (front : List (String × StepDef)) (lst : String × StepDef)
    (hs : p.steps = front ++ [lst])
    (hX : X.kind ∈ [PyKind.kframe, PyKind.kdict])
    (hy : y.kind ∈ [PyKind.kseries, PyKind.kdict])
    (hsw : sw = PyVal.pynone ∨ sw.kind ∈ [PyKind.kseries, PyKind.kdict]) :
    ((p.fit X y sw).2.1).length = front.length + 1 ∧
    (∀ i, i < front.length →
      (((p.fit X y sw).2.1).getD i dummyEvent).isFT = true ∧
      (((p.fit X y sw).2.1).getD i dummyEvent).tagOf = tagAt front i) ∧
    (((p.fit X y sw).2.1).getD front.length dummyEvent).isFitOnly = true ∧
    (((p.fit X y sw).2.1).getD front.length dummyEvent).tagOf = lst.1 ∧
    (∀ i, i + 1 < front.length + 1 →
      evInpAt ((p.fit X y sw).2.1) (i + 1) =
        returnX p.use_init_data (tagAt p.steps (i + 1))
          (evOutAt ((p.fit X y sw).2.1) i)
          (copyXIfUseInitData p.use_init_data X)) ∧
    (p.fit X y sw).2.2 = none ∧
    (p.fit X y sw).1.rules = lastStepRules (p.fit X y sw).1.steps_ := by
  have hv := validateFitArgs_none hX hy hsw
  refine ⟨?_, ?_, ?_, ?_, ?_, ?_, ?_⟩
  · rw [fit_events_length p X y sw front lst hv hs]
    simp [hs]
  · intro i hi
    rw [fit_ev_getD_lt p X y sw front lst hv hs i hi]
    exact ⟨fitLoop_isFT _ _ _ _ front X i hi,
      fitLoop_tagOf _ _ _ _ front X i hi⟩
  · rw [fit_ev_last p X y sw front lst hv hs]; rfl
  · rw [fit_ev_last p X y sw front lst hv hs]; rfl
  · intro i hi
    have hi' : i < front.length := by omega
    have htag : tagAt p.steps (i + 1) = tagAt (front ++ [lst]) (i + 1) := by
      rw [hs]
    rcases Nat.lt_or_ge (i + 1) front.length with hcase | hcase
    · have htag' : tagAt (front ++ [lst]) (i + 1) = tagAt front (i + 1) := by
        simp only [tagAt]
        rw [List.getD_append _ _ _ _ hcase]
      rw [fit_ev_inp_lt p X y sw front lst hv hs (i + 1) hcase,
        fitLoop_chain _ _ _ _ front X i hcase,
        fit_ev_out_lt p X y sw front lst hv hs i hi', htag, htag']
    · have hEq : i + 1 = front.length := by omega
      have hpos : 0 < front.length := by omega
      have hlast := fit_ev_last p X y sw front lst hv hs
      rw [← hEq] at hlast
      have htag' : tagAt (front ++ [lst]) (i + 1) = lst.1 := by
        simp only [tagAt, hEq]
        rw [List.getD_append_right _ _ _ _ (le_of_eq rfl)]
        simp
      rw [fit_ev_out_lt p X y sw front lst hv hs i hi']
      simp only [evInpAt, hlast, CallEvent.inp]
      rw [htag, htag',
        fitLoop_out_last p.use_init_data _ y sw front X hpos]
      have hsub : front.length - 1 = i := by omega
      rw [hsub]
  · rw [fit_decomp p X y sw front lst hv hs]
  · rw [fit_decomp p X y sw front lst hv hs]
    simp [lastStepRules, getLastD_append_singleton]

/-- Witness for C5 on the concrete two-step pipeline: `fit` logs exactly a
`fit_transform` call tagged `gen` then a `fit` call tagged `opt`, and the
pipeline's `rules` equals the fitted last step's `rules`. -/
theorem fit_runs_fitTransform_then_fit_witness :
    ((wPipeChain.fit wX wY PyVal.pynone).2.1).length = 2 ∧
    (((wPipeChain.fit wX wY PyVal.pynone).2.1).getD 0 dummyEvent).isFT
      = true ∧
    (((wPipeChain.fit wX wY PyVal.pynone).2.1).getD 1 dummyEvent).isFitOnly
      = true ∧
    (((wPipeChain.fit wX wY PyVal.pynone).2.1).getD 1 dummyEvent).tagOf
      = "opt" ∧
    (wPipeChain.fit wX wY PyVal.pynone).1.rules =
      lastStepRules (wPipeChain.fit wX wY PyVal.pynone).1.steps_ := by
  have h := fit_runs_fitTransform_then_fit wPipeChain wX wY PyVal.pynone
    [("gen", stepA)] ("opt", stepB) rfl (by decide) (by decide) (Or.inl rfl)
  exact ⟨h.1, (h.2.1 0 (by decide)).1, h.2.2.1, h.2.2.2.1, h.2.2.2.2.2.2⟩

theorem checkX_none {X : PyVal} (hX : X.kind ∈ [PyKind.kframe, PyKind.kdict]) :
    checkAllowedTypes X "X" [PyKind.kframe, PyKind.kdict] = none := by
  simp [checkAllowedTypes, hX]

theorem stripIdent_pycopy (X : PyVal) :
    (X.pycopy).stripIdent = X.stripIdent := by
  cases X <;> rfl

theorem pycopy_ne_self {X : PyVal}
    (hX : X.kind ∈ [PyKind.kframe, PyKind.kdict]) : X.pycopy ≠ X := by
  cases X <;> simp_all [PyVal.kind, PyVal.pycopy]
  intro hcontra
  exact absurd (congrArg Frame.ident hcontra) (by simp)

/-- Characterization of a successful `transform` on a fitted pipeline. -/
theorem transform_decomp (p : LinearPipeline) (X : PyVal)
    (fsteps : List (String × StepDef))
    (hX : X.kind ∈ [PyKind.kframe, PyKind.kdict])
    (hf : p.steps_ = some fsteps) :
    p.transform X =
      (p, (transformLoop p.use_init_data
          (copyXIfUseInitData p.use_init_data X) fsteps X).2,
       .ok (transformLoop p.use_init_data
          (copyXIfUseInitData p.use_init_data X) fsteps X).1) := by
  simp [LinearPipeline.transform, checkX_none hX, hf]

/-- Characterization of a successful `predict` on a fitted pipeline. -/
theorem predict_decomp (p : LinearPipeline) (X : PyVal)
    (front : List (String × StepDef)) (lst : String × StepDef)
    (hX : X.kind ∈ [PyKind.kframe, PyKind.kdict])
    (hf : p.steps_ = some (front ++ [lst])) :
    p.predict X =
      (p, (transformLoop p.use_init_data
          (copyXIfUseInitData p.use_init_data X) front X).2 ++
        [(pipelinePredict lst.1 lst.2
            (returnX p.use_init_data lst.1
              (transformLoop p.use_init_data
                (copyXIfUseInitData p.use_init_data X) front X).1
              (copyXIfUseInitData p.use_init_data X))).2],
       .ok (pipelinePredict lst.1 lst.2
            (returnX p.use_init_data lst.1
              (transformLoop p.use_init_data
                (copyXIfUseInitData p.use_init_data X) front X).1
              (copyXIfUseInitData p.use_init_data X))).1) := by
  simp [LinearPipeline.predict, checkX_none hX, hf, splitLast_append]

theorem predict_ev_inp_lt (p : LinearPipeline) (X : PyVal)
    (front : List (String × StepDef)) (lst : String × StepDef)
    (hX : X.kind ∈ [PyKind.kframe, PyKind.kdict])
    (hf : p.steps_ = some (front ++ [lst]))
    (i : Nat) (hi : i < front.length) :
    evInpAt ((p.predict X).2.1) i =
      evInpAt ((transformLoop p.use_init_data
        (copyXIfUseInitData p.use_init_data X) front X).2) i := by
  rw [predict_decomp p X front lst hX hf]
  have hlen : i < ((transformLoop p.use_init_data
      (copyXIfUseInitData p.use_init_data X) front X).2).length := by
    rw [transformLoop_length]; exact hi
  simp only [evInpAt]
  rw [List.getD_append _ _ _ _ hlen]

theorem predict_ev_inp_last (p : LinearPipeline) (X : PyVal)
    (front : List (String × StepDef)) (lst : String × StepDef)
    (hX : X.kind ∈ [PyKind.kframe, PyKind.kdict])
    (hf : p.steps_ = some (front ++ [lst])) :
    evInpAt ((p.predict X).2.1) front.length =
      returnX p.use_init_data lst.1
        (transformLoop p.use_init_data
          (copyXIfUseInitData p.use_init_data X) front X).1
        (copyXIfUseInitData p.use_init_data X) := by
  rw [predict_decomp p X front lst hX hf]
  have hlen : ((transformLoop p.use_init_data
      (copyXIfUseInitData p.use_init_data X) front X).2).length =
      front.length := transformLoop_length _ _ _ _
  simp only [evInpAt]
  rw [List.getD_append_right _ _ _ _ (le_of_eq hlen), hlen]
  simp [pipelinePredict, CallEvent.inp]

/-- C1: when `use_init_data` contains the tag of a step that is not first in
sequence, that step's recorded input during `fit`, `transform` and `predict`
is the `X_init` copy of the original input `X` (content-equal to `X`), not
the preceding step's output. -/
theorem use_init_data_overrides_running_X (p : LinearPipeline)
    (X y sw : PyVal) (l : List String)
    (hu : p.use_init_data = some l)
    (hX : X.kind ∈ [PyKind.kframe, PyKind.kdict])
    (hy : y.kind ∈ [PyKind.kseries, PyKind.kdict])
    (hsw : sw = PyVal.pynone ∨ sw.kind ∈ [PyKind.kseries, PyKind.kdict]) :
    (X.pycopy).stripIdent = X.stripIdent ∧
    (∀ i, 2 ≤ p.steps.length → 0 < i → i < p.steps.length →
      tagAt p.steps i ∈ l →
      evInpAt ((p.fit X y sw).2.1) i = X.pycopy) ∧
    (∀ fsteps i, p.steps_ = some fsteps → 2 ≤ fsteps.length → 0 < i →
      i < fsteps.length → tagAt fsteps i ∈ l →
      evInpAt ((p.transform X).2.1) i = X.pycopy) ∧
    (∀ fsteps i, p.steps_ = some fsteps → 2 ≤ fsteps.length → 0 < i →
      i < fsteps.length → tagAt fsteps i ∈ l →
      evInpAt ((p.predict X).2.1) i = X.pycopy) := by
  have hv := validateFitArgs_none hX hy hsw
  refine ⟨stripIdent_pycopy X, ?_, ?_, ?_⟩
  · intro i hlen2 hpos hilt hmem
    have hnil : l ≠ [] := List.ne_nil_of_mem hmem
    have hXi : copyXIfUseInitData (some l) X = X.pycopy :=
      copyXIfUseInitData_of_ne_nil X hnil
    obtain ⟨front, lst, hs⟩ := exists_front_last p.steps
      (by intro h; rw [h] at hilt; exact Nat.not_lt_zero i hilt)
    rcases Nat.lt_or_ge i front.length with hcase | hcase
    · have htag : tagAt front i ∈ l := by
        have heq : tagAt p.steps i = tagAt front i := by
          simp only [tagAt, hs]
          rw [List.getD_append _ _ _ _ hcase]
        rwa [heq] at hmem
      rw [fit_ev_inp_lt p X y sw front lst hv hs i hcase, hu, hXi]
      exact fitLoop_inp_of_mem _ _ _ front X i hcase htag
    · have hfl : p.steps.length = front.length + 1 := by simp [hs]
      have hEq : i = front.length := by omega
      have htag : lst.1 ∈ l := by
        have heq : tagAt p.steps i = lst.1 := by
          simp only [tagAt, hs, hEq]
          rw [List.getD_append_right _ _ _ _ (le_of_eq rfl)]
          simp
        rwa [heq] at hmem
      have hlast := fit_ev_last p X y sw front lst hv hs
      rw [← hEq] at hlast
      simp only [evInpAt, hlast, CallEvent.inp]
      rw [hu, returnX_of_mem _ _ htag, hXi]
  · intro fsteps i hf hlen2 hpos hilt hmem
    have hnil : l ≠ [] := List.ne_nil_of_mem hmem
    have hXi : copyXIfUseInitData (some l) X = X.pycopy :=
      copyXIfUseInitData_of_ne_nil X hnil
    rw [transform_decomp p X fsteps hX hf, hu, hXi]
    exact transformLoop_inp_of_mem _ fsteps X i hilt hmem
  · intro fsteps i hf hlen2 hpos hilt hmem
    have hnil : l ≠ [] := List.ne_nil_of_mem hmem
    have hXi : copyXIfUseInitData (some l) X = X.pycopy :=
      copyXIfUseInitData_of_ne_nil X hnil
    obtain ⟨front, lst, hs⟩ := exists_front_last fsteps
      (by intro h; rw [h] at hilt; exact Nat.not_lt_zero i hilt)
    rw [hs] at hf
    rcases Nat.lt_or_ge i front.length with hcase | hcase
    · have htag : tagAt front i ∈ l := by
        have heq : tagAt fsteps i = tagAt front i := by
          simp only [tagAt, hs]
          rw [List.getD_append _ _ _ _ hcase]
        rwa [heq] at hmem
      rw [predict_ev_inp_lt p X front lst hX hf i hcase, hu, hXi]
      exact transformLoop_inp_of_mem _ front X i hcase htag
    · have hEq : i = front.length := by
        have hfl : fsteps.length = front.length + 1 := by simp [hs]
        omega
      have htag : lst.1 ∈ l := by
        have heq : tagAt fsteps i = lst.1 := by
          simp only [tagAt, hs, hEq]
          rw [List.getD_append_right _ _ _ _ (le_of_eq rfl)]
          simp
        rwa [heq] at hmem
      rw [hEq, predict_ev_inp_last p X front lst hX hf, hu,
        returnX_of_mem _ _ htag, hXi]

/-- Witness for C1: in the concrete two-step pipeline with
`use_init_data = ["opt"]`, the second step's input during `fit` is the copy
of `X` (content-equal to `X`), although the first step's output differs
from `X`'s copy. -/
theorem use_init_data_overrides_running_X_witness :
    evInpAt ((wPipeInit.fit wX wY PyVal.pynone).2.1) 1 = wX.pycopy ∧
    (wX.pycopy).stripIdent = wX.stripIdent ∧
    evOutAt ((wPipeInit.fit wX wY PyVal.pynone).2.1) 0 ≠ wX.pycopy := by
  have h := use_init_data_overrides_running_X wPipeInit wX wY PyVal.pynone
    ["opt"] rfl (by decide) (by decide) (Or.inl rfl)
  refine ⟨h.2.1 1 (by decide) (by decide) (by decide) (by decide), h.1, ?_⟩
  intro hcontra
  have hout : evOutAt ((wPipeInit.fit wX wY PyVal.pynone).2.1) 0 =
      PyVal.frame ⟨100, [[1]]⟩ := by
    rw [fit_ev_out_lt wPipeInit wX wY PyVal.pynone
      [("gen", stepA)] ("opt", stepB) rfl rfl 0 (by decide)]
    rfl
  rw [hout] at hcontra
  exact absurd hcontra (by decide)

/-- C9: the input-selection rule applies uniformly to the first step too —
if the first step's tag appears in a non-empty `use_init_data`, the first
step receives the `X_init` copy of `X` (a distinct object with equal
content) rather than `X` itself. -/
theorem first_step_also_uses_init_data (p : LinearPipeline)
    (X y sw : PyVal) (l : List String)
    (hu : p.use_init_data = some l)
    (hne : p.steps ≠ [])
    (hmem : tagAt p.steps 0 ∈ l)
    (hX : X.kind ∈ [PyKind.kframe, PyKind.kdict])
    (hy : y.kind ∈ [PyKind.kseries, PyKind.kdict])
    (hsw : sw = PyVal.pynone ∨ sw.kind ∈ [PyKind.kseries, PyKind.kdict]) :
    evInpAt ((p.fit X y sw).2.1) 0 = X.pycopy ∧
    X.pycopy ≠ X ∧
    (X.pycopy).stripIdent = X.stripIdent := by
  have hv := validateFitArgs_none hX hy hsw
  have hnil : l ≠ [] := List.ne_nil_of_mem hmem
  have hXi : copyXIfUseInitData (some l) X = X.pycopy :=
    copyXIfUseInitData_of_ne_nil X hnil
  refine ⟨?_, pycopy_ne_self hX, stripIdent_pycopy X⟩
  obtain ⟨front, lst, hs⟩ := exists_front_last p.steps hne
  cases front with
  | nil =>
    have htag : lst.1 ∈ l := by
      have heq : tagAt p.steps 0 = lst.1 := by simp [tagAt, hs]
      rwa [heq] at hmem
    have h0 := fit_ev_last p X y sw [] lst hv hs
    simp only [List.length_nil] at h0
    simp only [evInpAt, h0, CallEvent.inp]
    rw [hu, returnX_of_mem _ _ htag, hXi]
  | cons f0 front' =>
    have htag : tagAt (f0 :: front') 0 ∈ l := by
      have heq : tagAt p.steps 0 = tagAt (f0 :: front') 0 := by
        simp only [tagAt, hs]
        rw [List.getD_append _ _ _ _ (by simp)]
      rwa [heq] at hmem
    rw [fit_ev_inp_lt p X y sw (f0 :: front') lst hv hs 0 (by simp),
      fitLoop_inp_zero _ _ _ _ _ _ (by simp), hu, hXi]
    exact returnX_of_mem _ _ (by simpa [tagAt] using htag)

/-- Witness for C9: concrete pipeline with the first tag in `use_init_data`;
the first step receives the copy, which differs from `X` as an object but
has equal content. -/
theorem first_step_also_uses_init_data_witness :
    evInpAt ((wPipeFirst.fit wX wY PyVal.pynone).2.1) 0 = wX.pycopy ∧
    wX.pycopy ≠ wX ∧
    (wX.pycopy).stripIdent = wX.stripIdent :=
  first_step_also_uses_init_data wPipeFirst wX wY PyVal.pynone ["gen"]
    rfl (by simp [wPipeFirst]) (by decide) (by decide) (by decide)
    (Or.inl rfl)

theorem splitLast_cons_ne_none {α : Type} :
    ∀ (a : α) (l : List α), splitLast (a :: l) ≠ none := by
  intro a l
  induction l generalizing a with
  | nil => simp [splitLast]
  | cons b m ih =>
    simp only [splitLast]
    rcases h : splitLast (b :: m) with _ | fl
    · exact absurd h (ih b)
    · simp

theorem splitLast_eq_append {α : Type} :
    ∀ (xs front : List α) (lst : α),
      splitLast xs = some (front, lst) → xs = front ++ [lst] := by
  intro xs
  induction xs with
  | nil => intro front lst h; cases h
  | cons hd tl ih =>
    intro front lst h
    cases tl with
    | nil =>
      simp [splitLast] at h
      simp [h.1, h.2]
    | cons t2 tl2 =>
      simp only [splitLast] at h
      rcases hs2 : splitLast (t2 :: tl2) with _ | fl
      · exact absurd hs2 (splitLast_cons_ne_none t2 tl2)
      · obtain ⟨f, l2⟩ := fl
        rw [hs2] at h
        simp at h
        rw [← h.1, ← h.2]
        simp [ih f l2 hs2]

/-- C4 counterexample: on a concrete unfitted pipeline (no `fit` has run,
`steps_` is unset), `transform` and `predict` fail with the downstream
`AttributeError` for the missing `steps_` attribute, not with an explicit
not-fitted error. -/
theorem unfitted_transform_predict_counterexample :
    (wPipeChain.transform wX).2.2 = .error (.attributeError "steps_") ∧
    isNotFittedErr (wPipeChain.transform wX).2.2 = false ∧
    (wPipeChain.predict wX).2.2 = .error (.attributeError "steps_") ∧
    isNotFittedErr (wPipeChain.predict wX).2.2 = false :=
  ⟨rfl, rfl, rfl, rfl⟩

/-- C4 (amended): calling `transform` or `predict` before any successful
`fit` (i.e. while `steps_` is unset) fails, but with the downstream
`AttributeError` arising from the missing `steps_` attribute — not with an
explicit not-fitted error. -/
theorem unfitted_transform_predict_attribute_error (p : LinearPipeline)
    (X : PyVal)
    (hun : p.steps_ = none)
    (hX : X.kind ∈ [PyKind.kframe, PyKind.kdict]) :
    (p.transform X).2.2 = .error (.attributeError "steps_") ∧
    isNotFittedErr (p.transform X).2.2 = false ∧
    (p.predict X).2.2 = .error (.attributeError "steps_") ∧
    isNotFittedErr (p.predict X).2.2 = false := by
  have h1 : (p.transform X).2.2 = .error (.attributeError "steps_") := by
    simp [LinearPipeline.transform, checkX_none hX, hun]
  have h2 : (p.predict X).2.2 = .error (.attributeError "steps_") := by
    simp [LinearPipeline.predict, checkX_none hX, hun]
  refine ⟨h1, ?_, h2, ?_⟩ <;> simp [h1, h2, isNotFittedErr]

/-- Witness for the amended C4 at a concrete unfitted pipeline. -/
theorem unfitted_transform_predict_attribute_error_witness :
    (wPipeInit.transform wX).2.2 = .error (.attributeError "steps_") ∧
    isNotFittedErr (wPipeInit.transform wX).2.2 = false ∧
    (wPipeInit.predict wX).2.2 = .error (.attributeError "steps_") ∧
    isNotFittedErr (wPipeInit.predict wX).2.2 = false :=
  unfitted_transform_predict_attribute_error wPipeInit wX rfl (by decide)

/-- C6: `fit_transform` behaves exactly as `fit` followed by `transform` on
the same original `X` (resulting state, event log and returned value), and
`fit_predict` behaves exactly as `fit` followed by `predict`; when `fit`
raises, the error propagates and the second phase does not run. -/
theorem fit_transform_fit_predict_compose (p : LinearPipeline)
    (X y sw : PyVal) :
    ((p.fit X y sw).2.2 = none →
      p.fit_transform X y sw =
        (((p.fit X y sw).1.transform X).1,
         (p.fit X y sw).2.1 ++ ((p.fit X y sw).1.transform X).2.1,
         ((p.fit X y sw).1.transform X).2.2) ∧
      p.fit_predict X y sw =
        (((p.fit X y sw).1.predict X).1,
         (p.fit X y sw).2.1 ++ ((p.fit X y sw).1.predict X).2.1,
         ((p.fit X y sw).1.predict X).2.2)) ∧
    (∀ e, (p.fit X y sw).2.2 = some e →
      p.fit_transform X y sw =
        ((p.fit X y sw).1, (p.fit X y sw).2.1, .error e) ∧
      p.fit_predict X y sw =
        ((p.fit X y sw).1, (p.fit X y sw).2.1, .error e)) := by
  constructor
  · intro h
    constructor <;>
      simp [LinearPipeline.fit_transform, LinearPipeline.fit_predict, h]
  · intro e h
    constructor <;>
      simp [LinearPipeline.fit_transform, LinearPipeline.fit_predict, h]

/-- Witness for C6: on the concrete fitted run, `fit_transform` equals the
`fit`-then-`transform` composition. -/
theorem fit_transform_fit_predict_compose_witness :
    (wPipeChain.fit wX wY PyVal.pynone).2.2 = none ∧
    wPipeChain.fit_transform wX wY PyVal.pynone =
      (((wPipeChain.fit wX wY PyVal.pynone).1.transform wX).1,
       (wPipeChain.fit wX wY PyVal.pynone).2.1 ++
         ((wPipeChain.fit wX wY PyVal.pynone).1.transform wX).2.1,
       ((wPipeChain.fit wX wY PyVal.pynone).1.transform wX).2.2) ∧
    wPipeChain.fit_predict wX wY PyVal.pynone =
      (((wPipeChain.fit wX wY PyVal.pynone).1.predict wX).1,
       (wPipeChain.fit wX wY PyVal.pynone).2.1 ++
         ((wPipeChain.fit wX wY PyVal.pynone).1.predict wX).2.1,
       ((wPipeChain.fit wX wY PyVal.pynone).1.predict wX).2.2) := by
  have h := (fit_transform_fit_predict_compose wPipeChain wX wY
    PyVal.pynone).1 rfl
  exact ⟨rfl, h.1, h.2⟩

/-- C7: `fit` never mutates the configured `steps` (it deep-copies them into
`steps_` and mutates only the copies), and a repeated `fit` — which starts
again from the original configuration — reproduces exactly the same fitted
`steps_`, `rules`, event log and error as the first `fit`. -/
theorem fit_copies_steps_and_is_repeatable (p : LinearPipeline)
    (X y sw : PyVal) :
    (p.fit X y sw).1.steps = p.steps ∧
    (p.fit X y sw).1.use_init_data = p.use_init_data ∧
    ((p.fit X y sw).1.fit X y sw).1.steps_ = (p.fit X y sw).1.steps_ ∧
    ((p.fit X y sw).1.fit X y sw).1.rules = (p.fit X y sw).1.rules ∧
    ((p.fit X y sw).1.fit X y sw).2 = (p.fit X y sw).2 := by
  refine ⟨(fit_preserves_config p X y sw).1,
    (fit_preserves_config p X y sw).2, ?_⟩
  rcases hval : validateFitArgs X y sw with _ | e
  · rcases hsplit : splitLast p.steps with _ | fl
    · simp [LinearPipeline.fit, hval, hsplit]
    · obtain ⟨front, lst⟩ := fl
      have hs : p.steps = front ++ [lst] :=
        splitLast_eq_append p.steps front lst hsplit
      rw [fit_decomp p X y sw front lst hval hs]
      rw [fit_decomp _ X y sw front lst hval (by simp [hs])]
      simp
  · simp [LinearPipeline.fit, hval]

/-- C8: a `use_init_data` of the wrong container kind is rejected with a
type error eagerly at construction, and a wrongly-typed `X`, `y` or
`sample_weight` passed to `fit` is rejected with a type error naming the
argument before any step executes: the pipeline object is returned
unchanged (`steps_` is not reassigned) and the event log is empty. -/
theorem construction_and_fit_reject_bad_types
    (steps : List (String × StepDef)) (u : PyVal) (p : LinearPipeline)
    (X y sw : PyVal) :
    (u.kind ∉ [PyKind.klist, PyKind.knone] →
      mkLinearPipeline steps u = .error (.typeError "use_init_data")) ∧
    (X.kind ∉ [PyKind.kframe, PyKind.kdict] →
      p.fit X y sw = (p, [], some (.typeError "X"))) ∧
    (X.kind ∈ [PyKind.kframe, PyKind.kdict] →
      y.kind ∉ [PyKind.kseries, PyKind.kdict] →
      p.fit X y sw = (p, [], some (.typeError "y"))) ∧
    (X.kind ∈ [PyKind.kframe, PyKind.kdict] →
      y.kind ∈ [PyKind.kseries, PyKind.kdict] →
      sw ≠ PyVal.pynone → sw.kind ∉ [PyKind.kseries, PyKind.kdict] →
      p.fit X y sw = (p, [], some (.typeError "sample_weight"))) := by
  refine ⟨?_, ?_, ?_, ?_⟩
  · intro h
    simp [mkLinearPipeline, checkAllowedTypes, h]
  · intro h
    simp [LinearPipeline.fit, validateFitArgs, checkAllowedTypes, h]
  · intro hX h
    simp [LinearPipeline.fit, validateFitArgs, checkAllowedTypes, hX, h]
  · intro hX hy hsw h
    simp [LinearPipeline.fit, validateFitArgs, checkAllowedTypes, hX, hy,
      hsw, h]

/-- Witness for C8 at concrete ill-typed arguments. -/
theorem construction_and_fit_reject_bad_types_witness :
    mkLinearPipeline [] wX = .error (.typeError "use_init_data") ∧
    wPipeChain.fit (PyVal.obj "bad") wY PyVal.pynone =
      (wPipeChain, [], some (.typeError "X")) ∧
    wPipeChain.fit wX (PyVal.obj "bad") PyVal.pynone =
      (wPipeChain, [], some (.typeError "y")) ∧
    wPipeChain.fit wX wY (PyVal.obj "bad") =
      (wPipeChain, [], some (.typeError "sample_weight")) := by
  refine ⟨?_, ?_, ?_, ?_⟩
  · exact (construction_and_fit_reject_bad_types [] wX wPipeChain
      wX wY PyVal.pynone).1 (by decide)
  · exact (construction_and_fit_reject_bad_types [] wX wPipeChain
      (PyVal.obj "bad") wY PyVal.pynone).2.1 (by decide)
  · exact (construction_and_fit_reject_bad_types [] wX wPipeChain
      wX (PyVal.obj "bad") PyVal.pynone).2.2.1 (by decide) (by decide)
  · exact (construction_and_fit_reject_bad_types [] wX wPipeChain
      wX wY (PyVal.obj "bad")).2.2.2 (by decide) (by decide) (by decide)
      (by decide)

/-- C10: `transform` and `predict` never rebind any attribute of the
pipeline object — they return the pipeline exactly as given (so `steps_`,
`rules`, `steps` and `use_init_data` are identical bindings after any
number of `transform`/`predict` calls); only `fit` assigns attributes. -/
theorem transform_predict_do_not_rebind (p : LinearPipeline) (X : PyVal) :
    (p.transform X).1 = p ∧ (p.predict X).1 = p := by
  constructor
  · unfold LinearPipeline.transform
    split
    · rfl
    · split <;> rfl
  · unfold LinearPipeline.predict
    split
    · rfl
    · split
      · rfl
      · split <;> rfl

end Iguanas
